import Mathlib

/-!
Verification of the bitcoin-rust repository (wire codec, Script opcodes,
p2p client dispatch).

The Rust source is shallowly embedded:
* byte buffers are `List Nat`, every entry kept below 256 by construction;
* the `Serializer` (which appends to a growing buffer) is embedded as pure
  functions returning the list of bytes appended;
* the `Deserializer` (a cursor over a byte slice) is embedded as functions
  `List Nat → Except String (α × List Nat)` returning the decoded value and
  the remaining input;
* Rust panics (`assert!`, `unwrap`, arithmetic aborts) are embedded as
  `Option`/`Except` failures where a claim depends on them;
* machine integers are `Nat`/`Int` with explicit bounds or `% 2^w` where the
  source's fixed width matters.
-/

namespace BitcoinRust

deriving instance DecidableEq for Except

/-- The flag set driving the codec (`Flag` in net/messages.rs). -/
inductive Flag where
  | bigEndian
  | variableSize
  | fixedSize (n : Nat)
  | shortFormat
deriving DecidableEq

/-- Embeds `Serializer::to_bytes`: the eight little-endian bytes of a u64.
The source computes byte `i` as `(u & (0xff << 8*i)) / 2^(8*i)`, which for
every `Nat` equals `u / 2^(8*i) % 256`. -/
def to_bytes (u : Nat) : List Nat :=
  [u % 0x100,
   u / 0x100 % 0x100,
   u / 0x10000 % 0x100,
   u / 0x1000000 % 0x100,
   u / 0x100000000 % 0x100,
   u / 0x10000000000 % 0x100,
   u / 0x1000000000000 % 0x100,
   u / 0x100000000000000 % 0x100]

/-- Embeds `Serializer::u_to_fixed`: push the first `bytes` little-endian bytes. -/
def u_to_fixed (x : Nat) (bytes : Nat) : List Nat :=
  (to_bytes x).take bytes

/-- Embeds `Serializer::var_int`.  The source matches `x` against Rust `...`
(inclusive) range patterns tried in order, so the boundaries are
`0 ..= 0xfd`, `0xfd ..= 0x10000` and `0x10000 ..= 0x100000000`. -/
def var_int (x : Nat) : List Nat :=
  if x ≤ 0xfd then [x % 0x100]
  else if x ≤ 0x10000 then 0xfd :: (to_bytes x).take 2
  else if x ≤ 0x100000000 then 0xfe :: (to_bytes x).take 4
  else 0xff :: (to_bytes x).take 8

/-- Embeds `Serializer::serialize_u`. -/
def serialize_u (x : Nat) (bytes : Nat) (flags : List Flag) : List Nat :=
  if Flag.variableSize ∈ flags then var_int x else u_to_fixed x bytes

/-- Embeds `Serializer::i_to_fixed`: sign-magnitude encoding.  The source takes
`u = x.abs()`, sets `sign = 0x80` exactly when `u != x as u64` (i.e. `x < 0`
on the domain where `abs` does not abort), and ORs the sign into
`data[bytes-1]`; since each byte is below 0x100, `b | 0x80 = b % 0x80 + 0x80`. -/
def i_to_fixed (x : Int) (bytes : Nat) : List Nat :=
  let u := x.natAbs
  let data := to_bytes u
  let last := data.getD (bytes - 1) 0
  let lastSigned := if 0 ≤ x then last else last % 0x80 + 0x80
  data.take (bytes - 1) ++ [lastSigned]

/-- Embeds `impl Serialize for bool`. -/
def ser_bool (b : Bool) : List Nat :=
  [if b then 1 else 0]

/-- Embeds `impl Serialize for i16` (`i_to_fixed(x as i64, 2)`). -/
def ser_i16 (x : Int) : List Nat :=
  i_to_fixed x 2

/-- Embeds `impl Serialize for i32` (`i_to_fixed(x as i64, 4)`). -/
def ser_i32 (x : Int) : List Nat :=
  i_to_fixed x 4

/-- Embeds `impl Serialize for u16`: big-endian form pushes `data[1]` then `data[0]`. -/
def ser_u16 (x : Nat) (flags : List Flag) : List Nat :=
  if Flag.bigEndian ∈ flags then [x / 0x100 % 0x100, x % 0x100]
  else u_to_fixed x 2

/-- Embeds `impl Serialize for u64`. -/
def ser_u64 (x : Nat) (flags : List Flag) : List Nat :=
  serialize_u x 8 flags

/-- Embeds `impl Serialize for Ipv6Addr`: for each 16-bit segment push the two bytes
big-endian (`bytes[1]` then `bytes[0]`). -/
def ser_ipv6 (segments : List Nat) : List Nat :=
  (segments.map (fun s => [s / 0x100 % 0x100, s % 0x100])).flatten

/-- Embeds `impl Serialize for time::Tm` (timestamp embedded as seconds : Int).
Short format casts the seconds to u64 (wrapping modulo 2^64). -/
def ser_time (sec : Int) (flags : List Flag) : List Nat :=
  if Flag.shortFormat ∈ flags then
    serialize_u (sec % (2 ^ 64 : Int)).toNat 4 []
  else i_to_fixed sec 8

/-- Embeds `impl Serialize for String` (strings embedded as their UTF-8 bytes). -/
def ser_string (s : List Nat) (flags : List Flag) : List Nat :=
  (if Flag.variableSize ∈ flags then var_int s.length else []) ++ s

/-- Embeds `impl Serialize for Services` (only `node_network` is modelled). -/
def ser_services (node_network : Bool) : List Nat :=
  serialize_u (if node_network then 1 else 0) 8 []

/-- Embeds `IPAddress` (net/mod.rs shape as used by messages.rs): services, a
16-byte IPv6 address kept as its eight 16-bit segments, and a port. -/
structure IPAddress where
  services : Bool
  address : List Nat
  port : Nat
deriving DecidableEq

/-- Embeds `impl Serialize for IPAddress`. -/
def ser_ipaddress (a : IPAddress) : List Nat :=
  ser_services a.services ++ ser_ipv6 a.address ++ ser_u16 a.port [Flag.bigEndian]

/-- Embeds `VersionMessage` (timestamp embedded as seconds, user_agent as UTF-8 bytes). -/
structure VersionMessage where
  version : Int
  services : Bool
  timestamp : Int
  addr_recv : IPAddress
  addr_from : IPAddress
  nonce : Nat
  user_agent : List Nat
  start_height : Int
  relay : Bool
deriving DecidableEq

/-- Embeds `impl Serialize for VersionMessage`: the relay byte is appended only when
`version > 70001`. -/
def ser_version (v : VersionMessage) : List Nat :=
  ser_i32 v.version ++ ser_services v.services ++ ser_time v.timestamp [] ++
  ser_ipaddress v.addr_recv ++ ser_ipaddress v.addr_from ++
  ser_u64 v.nonce [] ++ ser_string v.user_agent [Flag.variableSize] ++
  ser_i32 v.start_height ++
  (if v.version > 70001 then ser_bool v.relay else [])

/-! ## Deserializer -/

/-- Embeds `Cursor::read_exact`: consume exactly `n` bytes or fail. -/
def readBytes (n : Nat) (input : List Nat) : Option (List Nat × List Nat) :=
  if n ≤ input.length then some (input.take n, input.drop n) else none

/-- Embeds `Deserializer::to_u_slice`: little-endian value of a byte slice
(the source accumulates `data[i] * 256^i`). -/
def to_u_slice : List Nat → Nat
  | [] => 0
  | b :: rest => b + 0x100 * to_u_slice rest

/-- Embeds `Deserializer::to_u_fixed` (the source asserts `size ∈ {1,2,4,8}`;
every call site satisfies it). -/
def to_u_fixed (size : Nat) (input : List Nat) : Except String (Nat × List Nat) :=
  match readBytes size input with
  | none => .error "Error: short read"
  | some (data, rest) => .ok (to_u_slice data, rest)

/-- Embeds `Deserializer::to_var_int_any`: returns (payload width, value). -/
def to_var_int_any (input : List Nat) : Except String ((Nat × Nat) × List Nat) :=
  match input with
  | [] => .error "Error: short read"
  | b :: rest =>
    if b < 0xfd then .ok ((1, b), rest)
    else
      let bytes := if b = 0xfd then 2 else if b = 0xfe then 4
                   else if b = 0xff then 8 else 0
      match to_u_fixed bytes rest with
      | .error e => .error e
      | .ok (v, rest') => .ok ((bytes, v), rest')

/-- Embeds `Deserializer::to_var_int`: a var int of one specific width. -/
def to_var_int (size : Nat) (input : List Nat) : Except String (Nat × List Nat) :=
  match to_var_int_any input with
  | .error e => .error e
  | .ok ((bytes, result), rest) =>
    if size = bytes then .ok (result, rest)
    else .error "Wrong size var_int"

/-- Embeds `Deserializer::to_u`. -/
def to_u (size : Nat) (flags : List Flag) (input : List Nat) :
    Except String (Nat × List Nat) :=
  if Flag.variableSize ∈ flags then to_var_int size input else to_u_fixed size input

/-- Embeds `Deserializer::to_i`: sign-magnitude decode.  The source takes
`sign = data[size-1] & 0x80` and masks `data[size-1] &= 0x7F`; for any `Nat`
byte these are `b / 0x80 % 2` (tested against 0) and `b % 0x80`. -/
def to_i (size : Nat) (input : List Nat) : Except String (Int × List Nat) :=
  match readBytes size input with
  | none => .error "Error: short read"
  | some (data, rest) =>
    let last := data.getD (size - 1) 0
    let sign := last / 0x80 % 2
    let unsigned : Int := to_u_slice (data.take (size - 1) ++ [last % 0x80])
    if sign > 0 then .ok (unsigned * -1, rest) else .ok (unsigned, rest)

/-- Embeds `impl Deserialize for i32`: `to_i(4)` then an `as i32` cast; the cast
wraps modulo 2^32 into [-2^31, 2^31). -/
def wrap32 (x : Int) : Int :=
  (x + 2 ^ 31) % 2 ^ 32 - 2 ^ 31

/-- Embeds `impl Deserialize for i32`. -/
def des_i32 (input : List Nat) : Except String (Int × List Nat) :=
  match to_i 4 input with
  | .error e => .error e
  | .ok (v, rest) => .ok (wrap32 v, rest)

/-- Embeds `Deserializer::get_be_u16`. -/
def get_be_u16 (input : List Nat) : Except String (Nat × List Nat) :=
  match readBytes 2 input with
  | none => .error "Error: short read"
  | some (data, rest) => .ok (to_u_slice [data.getD 1 0, data.getD 0 0], rest)

/-- Embeds `Deserializer::to_ip`: sixteen bytes, each segment byte-swapped. -/
def to_ip (input : List Nat) : Except String (List Nat × List Nat) :=
  match readBytes 16 input with
  | none => .error "Error: short read"
  | some (data, rest) =>
    .ok ((List.range 8).map
          (fun i => to_u_slice [data.getD (2 * i + 1) 0, data.getD (2 * i) 0]),
         rest)

/-- Embeds `Deserializer::to_short_time`: a 4-byte unsigned count of seconds,
handed to `time::at_utc` with no range validation. -/
def to_short_time (input : List Nat) : Except String (Int × List Nat) :=
  match to_u_fixed 4 input with
  | .error e => .error e
  | .ok (sec, rest) => .ok ((sec : Int), rest)

/-- Embeds `Deserializer::to_time`: an 8-byte signed count of seconds, rejected
when below 0 or above 2000000000. -/
def to_time (input : List Nat) : Except String (Int × List Nat) :=
  match to_i 8 input with
  | .error e => .error e
  | .ok (sec, rest) =>
    if sec < 0 ∨ sec > 2000000000 then .error "Invalid time"
    else .ok (sec, rest)

/-- Embeds `Deserializer::to_bool`. -/
def to_bool (input : List Nat) : Except String (Bool × List Nat) :=
  match to_u_fixed 1 input with
  | .error e => .error e
  | .ok (data, rest) => .ok (data ≠ 0, rest)

/-- Embeds `extract_fixed_size`. -/
def extract_fixed_size : List Flag → Option Nat
  | [] => none
  | Flag.fixedSize n :: _ => some n
  | _ :: rest => extract_fixed_size rest

/-- A UTF-8 continuation byte. -/
def utf8Cont (b : Nat) : Bool :=
  0x80 ≤ b && b < 0xC0

/-- Validity of a byte sequence under `String::from_utf8` (Rust's strict
UTF-8 validation: no overlong forms, no surrogates, max U+10FFFF). -/
def validUtf8 : List Nat → Bool
  | [] => true
  | b :: rest =>
    if b < 0x80 then validUtf8 rest
    else if b < 0xC2 then false
    else if b < 0xE0 then
      match rest with
      | c1 :: r => utf8Cont c1 && validUtf8 r
      | [] => false
    else if b < 0xF0 then
      match rest with
      | c1 :: c2 :: r =>
        (if b = 0xE0 then 0xA0 ≤ c1 && c1 < 0xC0
         else if b = 0xED then 0x80 ≤ c1 && c1 < 0xA0
         else utf8Cont c1) && utf8Cont c2 && validUtf8 r
      | _ => false
    else if b < 0xF5 then
      match rest with
      | c1 :: c2 :: c3 :: r =>
        (if b = 0xF0 then 0x90 ≤ c1 && c1 < 0xC0
         else if b = 0xF4 then 0x80 ≤ c1 && c1 < 0x90
         else utf8Cont c1) && utf8Cont c2 && utf8Cont c3 && validUtf8 r
      | _ => false
    else false

/-- Embeds `Deserializer::to_string`: length from a FixedSize flag or a leading
varint, rejected above 1024; the bytes must pass UTF-8 validation. -/
def to_string (flags : List Flag) (input : List Nat) :
    Except String (List Nat × List Nat) :=
  let lengthAndRest : Except String (Nat × List Nat) :=
    match extract_fixed_size flags with
    | some n => .ok (n, input)
    | none =>
      match to_var_int_any input with
      | .error e => .error e
      | .ok ((_, v), rest) => .ok (v, rest)
  match lengthAndRest with
  | .error e => .error e
  | .ok (length, r1) =>
    if length > 1024 then .error "String is too long"
    else match readBytes length r1 with
      | none => .error "Error: short read"
      | some (bytes, rest) =>
        if validUtf8 bytes then .ok (bytes, rest)
        else .error "Error: Utf8Error"

/-- Embeds `impl Deserialize for Services` (`Services::new(data == 1)`). -/
def des_services (input : List Nat) : Except String (Bool × List Nat) :=
  match to_u 8 [] input with
  | .error e => .error e
  | .ok (data, rest) => .ok (data = 1, rest)

/-- Embeds `impl Deserialize for IPAddress`. -/
def des_ipaddress (input : List Nat) : Except String (IPAddress × List Nat) :=
  match des_services input with
  | .error e => .error e
  | .ok (services, r1) =>
    match to_ip r1 with
    | .error e => .error e
    | .ok (address, r2) =>
      match get_be_u16 r2 with
      | .error e => .error e
      | .ok (port, r3) => .ok (⟨services, address, port⟩, r3)

/-- Embeds `impl Deserialize for VersionMessage`: the relay byte is read only when
the decoded version exceeds 70001, defaulting to false otherwise. -/
def des_version (input : List Nat) : Except String (VersionMessage × List Nat) :=
  match des_i32 input with
  | .error e => .error e
  | .ok (version, r1) =>
    match des_services r1 with
    | .error e => .error e
    | .ok (services, r2) =>
      match to_time r2 with
      | .error e => .error e
      | .ok (timestamp, r3) =>
        match des_ipaddress r3 with
        | .error e => .error e
        | .ok (addr_recv, r4) =>
          match des_ipaddress r4 with
          | .error e => .error e
          | .ok (addr_from, r5) =>
            match to_u 8 [] r5 with
            | .error e => .error e
            | .ok (nonce, r6) =>
              match to_string [Flag.variableSize] r6 with
              | .error e => .error e
              | .ok (user_agent, r7) =>
                match des_i32 r7 with
                | .error e => .error e
                | .ok (start_height, r8) =>
                  match (if version > 70001 then to_bool r8
                         else .ok (false, r8)) with
                  | .error e => .error e
                  | .ok (relay, r9) =>
                    .ok (⟨version, services, timestamp, addr_recv, addr_from,
                          nonce, user_agent, start_height, relay⟩, r9)

/-! ## Command catalogue -/

/-- Embeds `Command` (net/messages.rs): the enum has exactly these wire commands
plus an internal `unknown`. -/
inductive Command where
  | addr
  | getAddr
  | version
  | verack
  | ping
  | pong
  | reject
  | getHeaders
  | unknown
deriving DecidableEq

/-- The bytes of `"version\0\0\0\0\0"`. -/
def cmdVersionBytes : List Nat := [118, 101, 114, 115, 105, 111, 110, 0, 0, 0, 0, 0]

/-- The bytes of `"verack\0\0\0\0\0\0"`. -/
def cmdVerackBytes : List Nat := [118, 101, 114, 97, 99, 107, 0, 0, 0, 0, 0, 0]

/-- The bytes of `"ping\0\0\0\0\0\0\0\0"`. -/
def cmdPingBytes : List Nat := [112, 105, 110, 103, 0, 0, 0, 0, 0, 0, 0, 0]

/-- The bytes of `"pong\0\0\0\0\0\0\0\0"`. -/
def cmdPongBytes : List Nat := [112, 111, 110, 103, 0, 0, 0, 0, 0, 0, 0, 0]

/-- The bytes of `"getaddr\0\0\0\0\0"`. -/
def cmdGetAddrBytes : List Nat := [103, 101, 116, 97, 100, 100, 114, 0, 0, 0, 0, 0]

/-- The bytes of `"addr\0\0\0\0\0\0\0\0"`. -/
def cmdAddrBytes : List Nat := [97, 100, 100, 114, 0, 0, 0, 0, 0, 0, 0, 0]

/-- The bytes of `"reject\0\0\0\0\0\0"`. -/
def cmdRejectBytes : List Nat := [114, 101, 106, 101, 99, 116, 0, 0, 0, 0, 0, 0]

/-- The bytes of `"getheaders\0\0"`. -/
def cmdGetHeadersBytes : List Nat := [103, 101, 116, 104, 101, 97, 100, 101, 114, 115, 0, 0]

/-- The catalogue of command names the decoder accepts. -/
def commandCatalogue : List (List Nat) :=
  [cmdVersionBytes, cmdVerackBytes, cmdPingBytes, cmdPongBytes,
   cmdGetAddrBytes, cmdAddrBytes, cmdRejectBytes, cmdGetHeadersBytes]

/-- Embeds `impl Deserialize for Command`: twelve fixed bytes matched against the
closed catalogue, everything else an error. -/
def des_command (input : List Nat) : Except String (Command × List Nat) :=
  match to_string [Flag.fixedSize 12] input with
  | .error e => .error e
  | .ok (data, rest) =>
    if data = cmdVersionBytes then .ok (Command.version, rest)
    else if data = cmdVerackBytes then .ok (Command.verack, rest)
    else if data = cmdPingBytes then .ok (Command.ping, rest)
    else if data = cmdPongBytes then .ok (Command.pong, rest)
    else if data = cmdGetAddrBytes then .ok (Command.getAddr, rest)
    else if data = cmdAddrBytes then .ok (Command.addr, rest)
    else if data = cmdRejectBytes then .ok (Command.reject, rest)
    else if data = cmdGetHeadersBytes then .ok (Command.getHeaders, rest)
    else .error "Unknown command"

/-! ## Script VM (parser/op_codes.rs)

The `Context` and `ScriptElement` types live in parser/mod.rs, which is not
part of the sources; their shape is modelled from the spec ("Script Context
= { program, stack, valid }; a ScriptElement is (OpCode reference, inline
data bytes, byte offset) plus optional forward links next/next_else") and
from how op_codes.rs uses them.  The stack is a `Vec` whose `last()` is the
top; it is embedded as a `List` with the top at the head.  A Rust panic
(`assert!` failure or `unwrap` of `None`) is embedded as `none`. -/

/-- A script element: inline data plus the forward links resolved at parse
time for IF/NOTIF. -/
inductive ScriptElement where
  | mk (data : List Nat) (next : Option ScriptElement)
       (next_else : Option ScriptElement)

/-- The inline data of a script element. -/
def ScriptElement.data : ScriptElement → List Nat
  | .mk d _ _ => d

/-- The true-branch link of a script element. -/
def ScriptElement.next : ScriptElement → Option ScriptElement
  | .mk _ n _ => n

/-- The false-branch link of a script element. -/
def ScriptElement.next_else : ScriptElement → Option ScriptElement
  | .mk _ _ e => e

/-- The Script execution context. -/
structure Context where
  data : ScriptElement
  stack : List (List Nat)
  valid : Bool

/-- Embeds `ZERO` in op_codes.rs. -/
def ZERO : Nat := 0x80

/-- Embeds `is_true`: the truthiness of an optional stack element. -/
def is_true : Option (List Nat) → Bool
  | none => false
  | some x => decide (x.length > 1) || (decide (x.length ≠ 0) && decide (x.headD 0 ≠ ZERO))

/-- Embeds `op_dup`: asserts a non-empty stack, then pushes a clone of the top. -/
def op_dup : Context → Option Context
  | ⟨_, [], _⟩ => none
  | ⟨d, x :: s, v⟩ => some ⟨d, x :: x :: s, v⟩

/-- Embeds `op_ifdup`: asserts a non-empty stack, duplicates only a truthy top. -/
def op_ifdup : Context → Option Context
  | ⟨_, [], _⟩ => none
  | ⟨d, x :: s, v⟩ =>
    if is_true (some x) then op_dup ⟨d, x :: s, v⟩ else some ⟨d, x :: s, v⟩

/-- Embeds `op_hash256`: pop (unwrap), push `sha256(sha256(x))`.  The hash itself is
the external crypto crate, taken as a parameter. -/
def op_hash256 (sha256f : List Nat → List Nat) : Context → Option Context
  | ⟨_, [], _⟩ => none
  | ⟨d, x :: s, v⟩ => some ⟨d, sha256f (sha256f x) :: s, v⟩

/-- Embeds `op_hash160`: pop (unwrap), push `ripemd160(sha256(x))`. -/
def op_hash160 (sha256f ripemd160f : List Nat → List Nat) :
    Context → Option Context
  | ⟨_, [], _⟩ => none
  | ⟨d, x :: s, v⟩ => some ⟨d, ripemd160f (sha256f x) :: s, v⟩

/-- Embeds `op_equalverify`: asserts at least two elements, pops both, and sets
`valid` to their equality. -/
def op_equalverify : Context → Option Context
  | ⟨d, x :: y :: s, _⟩ => some ⟨d, s, decide (x = y)⟩
  | _ => none

/-- Embeds `op_if`: pop (unwrap) the condition; follow `next` when truthy and
`next_else` otherwise (unwrap of a missing link also panics). -/
def op_if : Context → Option Context
  | ⟨_, [], _⟩ => none
  | ⟨d, x :: s, v⟩ =>
    if is_true (some x) then d.next.map (fun n => ⟨n, s, v⟩)
    else d.next_else.map (fun n => ⟨n, s, v⟩)

/-- Embeds `op_notif`: like `op_if` with the branches swapped. -/
def op_notif : Context → Option Context
  | ⟨_, [], _⟩ => none
  | ⟨d, x :: s, v⟩ =>
    if is_true (some x) then d.next_else.map (fun n => ⟨n, s, v⟩)
    else d.next.map (fun n => ⟨n, s, v⟩)

/-- Embeds `op_verify`: set `valid` from the truthiness of `stack.last()` without
popping; total — no assertion and no unwrap. -/
def op_verify (c : Context) : Option Context :=
  some { c with valid := is_true c.stack.head? }

/-! ## P2P client (net/p2pclient.rs)

`ExpiringCache`, `Timeout`, the block store and the inv message types are
imported by p2pclient.rs from modules absent from the sources; they are
modelled from the spec (sections 4.C, 4.D, 6 and the glossary).  Outbound
traffic is modelled at the typed frame level — `send_message(command, body)`
becomes appending a `Frame` — because the serializers of those commands are
likewise absent from the sources.  Wall-clock time is an abstract `Nat`
passed explicitly. -/

/-- A 32-byte hash. -/
def BHash := List Nat
deriving DecidableEq

/-- The all-zero hash (`BitcoinHash::new([0; 32])`). -/
def zeroHash : BHash := List.replicate 32 0

/-- Modelled from the spec: `Timeout<bool>` (section 4.C) — a value with an
absolute expiry; reading an expired timeout yields false. -/
structure Timeout where
  value : Bool
  expiry : Nat
deriving DecidableEq

/-- Embeds `Timeout::set(value, duration)` at instant `now`. -/
def Timeout.set (value : Bool) (duration now : Nat) : Timeout :=
  ⟨value, now + duration⟩

/-- Embeds `Timeout::get()` at instant `now`. -/
def Timeout.get (t : Timeout) (now : Nat) : Bool :=
  if now < t.expiry then t.value else false

/-- Modelled from the spec: `ExpiringCache` (section 4.D) — a set with a
per-entry absolute expiry `now + TTL`. -/
structure ExpiringCache where
  ttl : Nat
  entries : List (BHash × Nat)
deriving DecidableEq

/-- Embeds `ExpiringCache::insert(k)` at instant `now`: sets the key's expiry. -/
def ExpiringCache.insert (c : ExpiringCache) (k : BHash) (now : Nat) :
    ExpiringCache :=
  ⟨c.ttl, (k, now + c.ttl) :: c.entries.filter (fun e => e.1 ≠ k)⟩

/-- Embeds `ExpiringCache::has(k)`: present and not expired. -/
def ExpiringCache.has (c : ExpiringCache) (k : BHash) (now : Nat) : Bool :=
  c.entries.any (fun e => decide (e.1 = k) && decide (now < e.2))

/-- Embeds `ExpiringCache::remove(k)`. -/
def ExpiringCache.remove (c : ExpiringCache) (k : BHash) : ExpiringCache :=
  ⟨c.ttl, c.entries.filter (fun e => e.1 ≠ k)⟩

/-- Embeds `ExpiringCache::len()`: the non-expired count. -/
def ExpiringCache.len (c : ExpiringCache) (now : Nat) : Nat :=
  (c.entries.filter (fun e => decide (now < e.2))).length

/-- Embeds `ConnectionType`. -/
inductive ConnectionType where
  | inbound
  | outbound
deriving DecidableEq

/-- Embeds `Peer` (p2pclient.rs): ping bookkeeping, handshake state and the
block-request timeout. -/
structure Peer where
  ping_time : Nat
  ping : Int
  ping_data : Nat
  version : Option VersionMessage
  verak_received : Bool
  connection_type : ConnectionType
  waiting_for_blocks : Timeout
deriving DecidableEq

/-- Embeds `Peer::sent_getblocks`: a 15-second waiting timeout. -/
def Peer.sent_getblocks (p : Peer) (now : Nat) : Peer :=
  { p with waiting_for_blocks := Timeout.set true 15 now }

/-- Embeds `Peer::got_inv`: clear the waiting timeout. -/
def Peer.got_inv (p : Peer) (now : Nat) : Peer :=
  { p with waiting_for_blocks := Timeout.set false 0 now }

/-- Embeds `Peer::is_waiting_for_blocks`. -/
def Peer.is_waiting_for_blocks (p : Peer) (now : Nat) : Bool :=
  p.waiting_for_blocks.get now

/-- Modelled from the spec: the block store contract (section 6), restricted
to the members the claims touch — `block_locators()` and `has(hash)`. -/
structure BlockStore where
  locators : List BHash
  members : List BHash
deriving DecidableEq

/-- Modelled from the spec: the inventory vector types the dispatcher
distinguishes (MSG_TX, MSG_BLOCK, everything else logged). -/
inductive InvVecType where
  | msg_tx
  | msg_block
  | msg_other
deriving DecidableEq

/-- Modelled from the spec: an inventory vector — a pair (type, hash). -/
structure InventoryVector where
  type_ : InvVecType
  hash : BHash
deriving DecidableEq

/-- Modelled from the spec: the GetHeaders/GetBlocks body built by
`get_blocks` — version, block locators, hash_stop. -/
structure GetHeadersMsg where
  version : Nat
  block_locators : List BHash
  hash_stop : BHash
deriving DecidableEq

/-- Modelled from the spec: an outbound frame at the typed
(command, payload) level. -/
inductive Frame where
  | getblocks (msg : GetHeadersMsg)
  | getdata (inventory : List InventoryVector)
deriving DecidableEq

/-- Embeds `State` (p2pclient.rs): peers, the tx store (only key membership is
observable by the claims), the block store and the pending-inv cache. -/
structure State where
  peers : List (Nat × Peer)
  tx_store : List BHash
  block_store : BlockStore
  pending_inv : ExpiringCache
deriving DecidableEq

/-- Embeds `State::get_peer`. -/
def State.get_peer (s : State) (token : Nat) : Option Peer :=
  (s.peers.find? (fun e => e.1 == token)).map (fun e => e.2)

/-- Embeds `HashMap::get_mut` + in-place mutation: replace the peer stored under
`token` (a no-op when the token is absent). -/
def State.set_peer (s : State) (token : Nat) (p : Peer) : State :=
  { s with peers := s.peers.map (fun e => if e.1 == token then (token, p) else e) }

/-- Embeds `State::pending_inv_len`. -/
def State.pending_inv_len (s : State) (now : Nat) : Nat :=
  s.pending_inv.len now

/-- Embeds `State::block_locators`. -/
def State.block_locators (s : State) : List BHash :=
  s.block_store.locators

/-- Embeds `State::has_tx`. -/
def State.has_tx (s : State) (h : BHash) : Bool :=
  s.tx_store.contains h

/-- Embeds `State::has_block`. -/
def State.has_block (s : State) (h : BHash) : Bool :=
  s.block_store.members.contains h

/-- Embeds `State::is_pending_inv`. -/
def State.is_pending_inv (s : State) (h : BHash) (now : Nat) : Bool :=
  s.pending_inv.has h now

/-- Embeds `State::add_inv`. -/
def State.add_inv (s : State) (h : BHash) (now : Nat) : State :=
  { s with pending_inv := s.pending_inv.insert h now }

/-- Embeds `VERSION` in p2pclient.rs. -/
def VERSION : Nat := 70001

/-- Embeds `BitcoinClient::get_blocks`: skip under backpressure
(`pending_inv.len() > 100`), skip while the peer is waiting (the peer lookup
unwraps — `none` models the panic on an unknown token); otherwise mark the
peer waiting and send one `getblocks` frame with the store's locators and an
all-zero `hash_stop`. -/
def get_blocks (s : State) (token now : Nat) : Option (State × List Frame) :=
  if s.pending_inv_len now > 100 then some (s, [])
  else
    match s.get_peer token with
    | none => none
    | some p =>
      if p.is_waiting_for_blocks now then some (s, [])
      else
        some (s.set_peer token (p.sent_getblocks now),
              [Frame.getblocks ⟨VERSION, s.block_locators, zeroHash⟩])

/-- One step of `handle_inv`'s partition loop: transactions not in the tx
store and blocks neither stored nor pending are requested; requested block
hashes are inserted into `pending_inv` immediately (so a duplicate later in
the same message is skipped). -/
def handle_inv_step (now : Nat) (acc : State × List InventoryVector)
    (iv : InventoryVector) : State × List InventoryVector :=
  let (st, nd) := acc
  match iv.type_ with
  | InvVecType.msg_tx =>
    if st.has_tx iv.hash then (st, nd)
    else (st, nd ++ [⟨InvVecType.msg_tx, iv.hash⟩])
  | InvVecType.msg_block =>
    if !st.has_block iv.hash && !st.is_pending_inv iv.hash now then
      (st.add_inv iv.hash now, nd ++ [⟨InvVecType.msg_block, iv.hash⟩])
    else (st, nd)
  | InvVecType.msg_other => (st, nd)

/-- Embeds `BitcoinClient::handle_inv`: partition the announced inventory, reply
with a single `getdata` (possibly empty), then clear the peer's waiting
flag (the peer lookup unwraps — `none` models the panic). -/
def handle_inv (s : State) (inventory : List InventoryVector)
    (token now : Nat) : Option (State × List Frame) :=
  let acc := inventory.foldl (handle_inv_step now) (s, [])
  match acc.1.get_peer token with
  | none => none
  | some p =>
    some (acc.1.set_peer token (p.got_inv now), [Frame.getdata acc.2])


/-! ## Concrete fixtures used by witnesses and counterexamples -/

/-- An example IPv4-mapped IPv6 address record. -/
def ipExample : IPAddress := ⟨true, [0, 0, 0, 0, 0, 0xffff, 0xc0a8, 0x3865], 18333⟩

/-- A version message above the relay threshold with an out-of-range
(negative) timestamp. -/
def vmOutOfRangeTime : VersionMessage :=
  ⟨70002, true, -1, ipExample, ipExample, 99, [], 7, true⟩

/-- A version message whose version is i32::MIN, with every decode guard
(timestamp range, user_agent length and UTF-8) satisfied. -/
def vmMinVersion : VersionMessage :=
  ⟨-(2 ^ 31), true, 1000, ipExample, ipExample, 99, [47, 65, 47], 7, false⟩

/-- A well-formed version message above the relay threshold. -/
def vmHigh : VersionMessage :=
  ⟨70002, true, 1000, ipExample, ipExample, 99, [47, 65, 47], 7, true⟩

/-- A well-formed version message at the relay threshold. -/
def vmLow : VersionMessage :=
  ⟨70001, true, 1000, ipExample, ipExample, 99, [47, 65, 47], 7, true⟩

/-- A script element with no data and no links. -/
def elemNop : ScriptElement := ScriptElement.mk [] none none

/-- A peer with no outstanding state. -/
def peerFresh : Peer :=
  ⟨0, -1, 0, none, false, ConnectionType.outbound, ⟨false, 0⟩⟩

/-- A client state with one registered peer (token 0) and empty stores. -/
def stateFresh : State :=
  ⟨[(0, peerFresh)], [], ⟨[[1]], [[1]]⟩, ⟨120, []⟩⟩

/-! ## Round-trip lemmas -/

theorem readBytes_append (n : Nat) (l rest : List Nat) (h : l.length = n) :
    readBytes n (l ++ rest) = some (l, rest) := by
  subst h
  simp [readBytes, List.take_left, List.drop_left]

theorem to_u_slice_take1 (x : Nat) (h : x < 2 ^ 8) :
    to_u_slice ((to_bytes x).take 1) = x := by
  simp [to_bytes, to_u_slice]
  omega

theorem to_u_slice_take2 (x : Nat) (h : x < 2 ^ 16) :
    to_u_slice ((to_bytes x).take 2) = x := by
  simp [to_bytes, to_u_slice]
  omega

theorem to_u_slice_take4 (x : Nat) (h : x < 2 ^ 32) :
    to_u_slice ((to_bytes x).take 4) = x := by
  simp [to_bytes, to_u_slice]
  omega

theorem to_u_slice_take8 (x : Nat) (h : x < 2 ^ 64) :
    to_u_slice ((to_bytes x).take 8) = x := by
  simp [to_bytes, to_u_slice]
  omega

theorem to_u_fixed_round (n x : Nat) (rest : List Nat) (hn : n ≤ 8)
    (hx : to_u_slice ((to_bytes x).take n) = x) :
    to_u_fixed n (u_to_fixed x n ++ rest) = .ok (x, rest) := by
  have hlen : (u_to_fixed x n).length = n := by
    simp [u_to_fixed, to_bytes]
    omega
  unfold to_u_fixed u_to_fixed
  rw [readBytes_append n _ rest (by simpa [u_to_fixed] using hlen)]
  simp [hx]

theorem to_i_i_to_fixed4 (x : Int) (h : x.natAbs < 2 ^ 31) (rest : List Nat) :
    to_i 4 (i_to_fixed x 4 ++ rest) = .ok (x, rest) := by
  by_cases hx : 0 ≤ x
  · rw [show i_to_fixed x 4 =
        [x.natAbs % 256, x.natAbs / 256 % 256, x.natAbs / 65536 % 256,
         x.natAbs / 16777216 % 256] from by simp [i_to_fixed, to_bytes, hx]]
    unfold to_i
    rw [readBytes_append 4 _ rest (by simp)]
    simp [to_u_slice, -Int.natCast_natAbs]
    rw [if_neg (by omega)]
    simp only [Except.ok.injEq, Prod.mk.injEq]
    refine ⟨by omega, trivial⟩
  · rw [show i_to_fixed x 4 =
        [x.natAbs % 256, x.natAbs / 256 % 256, x.natAbs / 65536 % 256,
         x.natAbs / 16777216 % 256 % 128 + 128] from by simp [i_to_fixed, to_bytes, hx]]
    unfold to_i
    rw [readBytes_append 4 _ rest (by simp)]
    simp [to_u_slice, -Int.natCast_natAbs]
    omega

theorem to_i_i_to_fixed8 (x : Int) (h : x.natAbs < 2 ^ 63) (rest : List Nat) :
    to_i 8 (i_to_fixed x 8 ++ rest) = .ok (x, rest) := by
  by_cases hx : 0 ≤ x
  · rw [show i_to_fixed x 8 =
        [x.natAbs % 256, x.natAbs / 256 % 256, x.natAbs / 65536 % 256,
         x.natAbs / 16777216 % 256, x.natAbs / 4294967296 % 256,
         x.natAbs / 1099511627776 % 256, x.natAbs / 281474976710656 % 256,
         x.natAbs / 72057594037927936 % 256] from by simp [i_to_fixed, to_bytes, hx]]
    unfold to_i
    rw [readBytes_append 8 _ rest (by simp)]
    simp [to_u_slice, -Int.natCast_natAbs]
    rw [if_neg (by omega)]
    simp only [Except.ok.injEq, Prod.mk.injEq]
    refine ⟨by omega, trivial⟩
  · rw [show i_to_fixed x 8 =
        [x.natAbs % 256, x.natAbs / 256 % 256, x.natAbs / 65536 % 256,
         x.natAbs / 16777216 % 256, x.natAbs / 4294967296 % 256,
         x.natAbs / 1099511627776 % 256, x.natAbs / 281474976710656 % 256,
         x.natAbs / 72057594037927936 % 256 % 128 + 128] from by
           simp [i_to_fixed, to_bytes, hx]]
    unfold to_i
    rw [readBytes_append 8 _ rest (by simp)]
    simp [to_u_slice, -Int.natCast_natAbs]
    omega

theorem wrap32_id (x : Int) (h : x.natAbs < 2 ^ 31) : wrap32 x = x := by
  unfold wrap32
  omega

theorem des_i32_round (x : Int) (h : x.natAbs < 2 ^ 31) (rest : List Nat) :
    des_i32 (ser_i32 x ++ rest) = .ok (x, rest) := by
  unfold des_i32 ser_i32
  rw [to_i_i_to_fixed4 x h rest]
  simp [wrap32_id x h]

theorem to_u_fixed8_round (x : Nat) (h : x < 2 ^ 64) (rest : List Nat) :
    to_u_fixed 8 (u_to_fixed x 8 ++ rest) = .ok (x, rest) :=
  to_u_fixed_round 8 x rest (by omega) (to_u_slice_take8 x h)

theorem des_services_round (b : Bool) (rest : List Nat) :
    des_services (ser_services b ++ rest) = .ok (b, rest) := by
  unfold des_services ser_services serialize_u to_u
  cases b
  · simp only [Bool.false_eq_true, if_false, List.not_mem_nil]
    rw [to_u_fixed8_round 0 (by norm_num) rest]
    simp
  · simp only [if_true, if_false, List.not_mem_nil]
    rw [to_u_fixed8_round 1 (by norm_num) rest]
    simp

theorem to_time_round (sec : Int) (h0 : 0 ≤ sec) (h1 : sec ≤ 2000000000)
    (rest : List Nat) :
    to_time (ser_time sec [] ++ rest) = .ok (sec, rest) := by
  have hser : ser_time sec [] = i_to_fixed sec 8 := by simp [ser_time]
  unfold to_time
  rw [hser, to_i_i_to_fixed8 sec (by omega) rest]
  dsimp only []
  rw [if_neg (by omega)]

theorem to_bool_round (b : Bool) (rest : List Nat) :
    to_bool (ser_bool b ++ rest) = .ok (b, rest) := by
  unfold to_bool ser_bool
  cases b <;> simp [to_u_fixed, readBytes, to_u_slice]

theorem get_be_u16_round (p : Nat) (h : p < 2 ^ 16) (rest : List Nat) :
    get_be_u16 (ser_u16 p [Flag.bigEndian] ++ rest) = .ok (p, rest) := by
  unfold get_be_u16 ser_u16
  simp only [List.mem_cons, List.mem_singleton, or_false, if_pos rfl]
  rw [readBytes_append 2 _ rest (by simp)]
  simp [to_u_slice]
  omega

theorem to_var_int_any_var_int (L : Nat) (h : L ≤ 1024) (hne : L ≠ 0xFD)
    (tail : List Nat) :
    ∃ w, to_var_int_any (var_int L ++ tail) = .ok ((w, L), tail) := by
  by_cases hs : L < 0xFD
  · refine ⟨1, ?_⟩
    rw [show var_int L = [L % 256] from by unfold var_int; rw [if_pos (by omega)]]
    unfold to_var_int_any
    simp only [List.cons_append]
    rw [if_pos (by omega)]
    simp only [Except.ok.injEq, Prod.mk.injEq]
    exact ⟨⟨trivial, by omega⟩, by simp⟩
  · refine ⟨2, ?_⟩
    rw [show var_int L = 0xfd :: (to_bytes L).take 2 from by
      unfold var_int
      rw [if_neg (by omega), if_pos (by omega)]]
    unfold to_var_int_any
    simp only [List.cons_append]
    rw [if_neg (by omega)]
    have h2 : to_u_fixed 2 (u_to_fixed L 2 ++ tail) = .ok (L, tail) :=
      to_u_fixed_round 2 L tail (by omega) (to_u_slice_take2 L (by omega))
    unfold u_to_fixed at h2
    simp [h2]

theorem to_string_round (s : List Nat) (h1 : s.length ≤ 1024)
    (h2 : s.length ≠ 0xFD) (hv : validUtf8 s = true) (rest : List Nat) :
    to_string [Flag.variableSize] (ser_string s [Flag.variableSize] ++ rest) =
      .ok (s, rest) := by
  obtain ⟨w, hw⟩ := to_var_int_any_var_int s.length h1 h2 (s ++ rest)
  have hser : ser_string s [Flag.variableSize] ++ rest =
      var_int s.length ++ (s ++ rest) := by
    simp [ser_string]
  unfold to_string
  rw [hser, show extract_fixed_size [Flag.variableSize] = none from rfl]
  dsimp only []
  rw [hw]
  dsimp only []
  rw [if_neg (by omega)]
  rw [readBytes_append s.length s rest rfl]
  simp [hv]

theorem to_ip_round (segs : List Nat) (hlen : segs.length = 8)
    (hseg : ∀ s ∈ segs, s < 2 ^ 16) (rest : List Nat) :
    to_ip (ser_ipv6 segs ++ rest) = .ok (segs, rest) := by
  rcases segs with _ | ⟨s0, _ | ⟨s1, _ | ⟨s2, _ | ⟨s3, _ | ⟨s4, _ | ⟨s5,
    _ | ⟨s6, _ | ⟨s7, _ | ⟨s8, t⟩⟩⟩⟩⟩⟩⟩⟩⟩ <;> simp only [List.length] at hlen
  case cons.cons.cons.cons.cons.cons.cons.cons.nil =>
    have b0 : s0 < 2 ^ 16 := hseg s0 (by simp)
    have b1 : s1 < 2 ^ 16 := hseg s1 (by simp)
    have b2 : s2 < 2 ^ 16 := hseg s2 (by simp)
    have b3 : s3 < 2 ^ 16 := hseg s3 (by simp)
    have b4 : s4 < 2 ^ 16 := hseg s4 (by simp)
    have b5 : s5 < 2 ^ 16 := hseg s5 (by simp)
    have b6 : s6 < 2 ^ 16 := hseg s6 (by simp)
    have b7 : s7 < 2 ^ 16 := hseg s7 (by simp)
    unfold to_ip ser_ipv6
    rw [readBytes_append 16 _ rest (by simp)]
    simp [to_u_slice, List.range_succ]
    refine ⟨by omega, by omega, by omega, by omega, by omega, by omega,
      by omega, by omega⟩
  all_goals omega

theorem to_u_nil (n : Nat) (input : List Nat) :
    to_u n [] input = to_u_fixed n input := by
  simp [to_u]

theorem des_ipaddress_round (a : IPAddress) (hlen : a.address.length = 8)
    (hseg : ∀ s ∈ a.address, s < 2 ^ 16) (hport : a.port < 2 ^ 16)
    (rest : List Nat) :
    des_ipaddress (ser_ipaddress a ++ rest) = .ok (a, rest) := by
  obtain ⟨sv, addr, port⟩ := a
  unfold des_ipaddress ser_ipaddress
  simp only [List.append_assoc]
  rw [des_services_round sv _]
  dsimp only []
  rw [to_ip_round addr hlen hseg _]
  dsimp only []
  rw [get_be_u16_round port hport rest]

theorem des_version_round (v : VersionMessage)
    (hver : v.version.natAbs < 2 ^ 31)
    (hts0 : 0 ≤ v.timestamp) (hts1 : v.timestamp ≤ 2000000000)
    (hrl : v.addr_recv.address.length = 8)
    (hrs : ∀ s ∈ v.addr_recv.address, s < 2 ^ 16)
    (hrp : v.addr_recv.port < 2 ^ 16)
    (hfl : v.addr_from.address.length = 8)
    (hfs : ∀ s ∈ v.addr_from.address, s < 2 ^ 16)
    (hfp : v.addr_from.port < 2 ^ 16)
    (hnonce : v.nonce < 2 ^ 64)
    (hua1 : v.user_agent.length ≤ 1024) (hua2 : v.user_agent.length ≠ 0xFD)
    (hua3 : validUtf8 v.user_agent = true)
    (hsh : v.start_height.natAbs < 2 ^ 31) :
    des_version (ser_version v) =
      .ok (if v.version > 70001 then v else { v with relay := false }, []) := by
  obtain ⟨ver, sv, ts, recv, afrom, nonce, ua, sh, relay⟩ := v
  simp only at hver hts0 hts1 hrl hrs hrp hfl hfs hfp hnonce hua1 hua2 hua3 hsh ⊢
  unfold ser_version des_version
  simp only [List.append_assoc]
  rw [des_i32_round ver hver _]
  dsimp only []
  rw [des_services_round sv _]
  dsimp only []
  rw [to_time_round ts hts0 hts1 _]
  dsimp only []
  rw [des_ipaddress_round recv hrl hrs hrp _]
  dsimp only []
  rw [des_ipaddress_round afrom hfl hfs hfp _]
  dsimp only []
  rw [show ser_u64 nonce [] = u_to_fixed nonce 8 from by simp [ser_u64, serialize_u]]
  rw [to_u_nil, to_u_fixed8_round nonce hnonce _]
  dsimp only []
  rw [to_string_round ua hua1 hua2 hua3 _]
  dsimp only []
  by_cases h70 : ver > 70001
  · rw [if_pos h70]
    rw [des_i32_round sh hsh _]
    dsimp only []
    rw [if_pos h70]
    rw [show ser_bool relay = ser_bool relay ++ [] from (List.append_nil _).symm]
    rw [to_bool_round relay []]
    dsimp only []
    rw [if_pos h70]
  · rw [if_neg h70]
    rw [show ser_i32 sh ++ [] = ser_i32 sh from List.append_nil _]
    rw [show ser_i32 sh = ser_i32 sh ++ [] from (List.append_nil _).symm]
    rw [des_i32_round sh hsh _]
    dsimp only []
    rw [if_neg h70]
    dsimp only []
    rw [if_neg h70]

/-! ## Client lemmas -/

theorem handle_inv_step_peers (now : Nat) (acc : State × List InventoryVector)
    (iv : InventoryVector) : (handle_inv_step now acc iv).1.peers = acc.1.peers := by
  obtain ⟨st, nd⟩ := acc
  unfold handle_inv_step
  cases iv.type_ <;> dsimp only [] <;> split <;> rfl

theorem handle_inv_fold_peers (now : Nat) (l : List InventoryVector)
    (acc : State × List InventoryVector) :
    (l.foldl (handle_inv_step now) acc).1.peers = acc.1.peers := by
  induction l generalizing acc with
  | nil => rfl
  | cons iv t ih => rw [List.foldl_cons, ih, handle_inv_step_peers]

theorem find_map_update (l : List (Nat × Peer)) (t : Nat) (q : Peer)
    (h : (l.find? (fun e => e.1 == t)).isSome) :
    (l.map (fun e => if e.1 == t then (t, q) else e)).find? (fun e => e.1 == t) =
      some (t, q) := by
  induction l with
  | nil => simp [List.find?] at h
  | cons a l ih =>
    by_cases ha : a.1 == t
    · simp only [List.map_cons, if_pos ha]
      rw [List.find?_cons_of_pos _ (by simp)]
    · simp only [List.map_cons, if_neg ha]
      rw [List.find?_cons_of_neg _ (by simpa using ha)]
      rw [List.find?_cons_of_neg _ (by simpa using ha)] at h
      exact ih h

theorem get_set_peer (s : State) (t : Nat) (p q : Peer)
    (h : s.get_peer t = some p) : (s.set_peer t q).get_peer t = some q := by
  unfold State.get_peer State.set_peer at *
  have hsome : (s.peers.find? (fun e => e.1 == t)).isSome := by
    cases hf : s.peers.find? (fun e => e.1 == t) <;> simp [hf] at h ⊢
  rw [find_map_update s.peers t q hsome]
  rfl

theorem got_inv_not_waiting (p : Peer) (now : Nat) :
    (p.got_inv now).is_waiting_for_blocks now = false := by
  simp [Peer.got_inv, Peer.is_waiting_for_blocks, Timeout.get, Timeout.set]

/-! ## Claim theorems -/

/-- C1: the spec's varint boundary table says {0, 0xFC, 0xFD, 0xFFFF,
0x10000, 0xFFFFFFFF, 0x100000000, 2^64-1} encode to {1,1,3,3,5,5,9,9} bytes
and that decode inverts encode.  The code's inclusive `...` range patterns
make 0xFD encode to ONE byte (which the decoder then reads as a two-byte
marker and fails), 0x10000 to three bytes (decoding to 0) and 0x100000000
to five bytes (decoding to 0): the encoder contradicts the decoder next to
it in the same file.  This theorem evaluates the code at the failing
boundary inputs. -/
theorem varint_boundary_divergence :
    (var_int 0).length = 1 ∧ (var_int 0xFC).length = 1 ∧
    var_int 0xFD = [0xFD] ∧ (var_int 0xFD).length = 1 ∧
    (var_int 0xFFFF).length = 3 ∧ (var_int 0x10000).length = 3 ∧
    (var_int 0xFFFFFFFF).length = 5 ∧ (var_int 0x100000000).length = 5 ∧
    (var_int (2 ^ 64 - 1)).length = 9 ∧
    to_var_int_any (var_int 0xFD) = .error "Error: short read" ∧
    to_var_int_any (var_int 0x10000) = .ok ((2, 0), []) ∧
    to_var_int_any (var_int 0x100000000) = .ok ((4, 0), []) := by
  decide

/-- C2 counterexample: the claim's sixteen-name catalogue includes
`getblocks`, but deserializing `"getblocks\0\0\0"` is a decode error. -/
theorem command_getblocks_rejected :
    (des_command [103, 101, 116, 98, 108, 111, 99, 107, 115, 0, 0, 0]).isOk =
      false := by
  decide

/-- C2 (amended): the closed catalogue has exactly the EIGHT names of the
source's `Command` enum — version, verack, ping, pong, getaddr, addr,
reject, getheaders — each decoding to its variant; every other 12-byte
input is a decode error. -/
theorem command_catalogue_exact :
    (des_command cmdVersionBytes = .ok (Command.version, []) ∧
     des_command cmdVerackBytes = .ok (Command.verack, []) ∧
     des_command cmdPingBytes = .ok (Command.ping, []) ∧
     des_command cmdPongBytes = .ok (Command.pong, []) ∧
     des_command cmdGetAddrBytes = .ok (Command.getAddr, []) ∧
     des_command cmdAddrBytes = .ok (Command.addr, []) ∧
     des_command cmdRejectBytes = .ok (Command.reject, []) ∧
     des_command cmdGetHeadersBytes = .ok (Command.getHeaders, [])) ∧
    (∀ bs : List Nat, bs.length = 12 → bs ∉ commandCatalogue →
      (des_command bs).isOk = false) := by
  refine ⟨by decide, ?_⟩
  intro bs h12 hnot
  simp only [commandCatalogue, List.mem_cons, List.not_mem_nil, or_false,
    not_or] at hnot
  obtain ⟨n1, n2, n3, n4, n5, n6, n7, n8⟩ := hnot
  unfold des_command to_string
  rw [show extract_fixed_size [Flag.fixedSize 12] = some 12 from rfl]
  dsimp only []
  rw [if_neg (by omega)]
  rw [show readBytes 12 bs = some (bs, []) from by
    unfold readBytes
    rw [if_pos (by omega)]
    rw [List.take_of_length_le (by omega), List.drop_eq_nil_of_le (by omega)]]
  dsimp only []
  by_cases hu : validUtf8 bs
  · rw [if_pos hu]
    dsimp only []
    rw [if_neg n1, if_neg n2, if_neg n3, if_neg n4, if_neg n5, if_neg n6,
      if_neg n7, if_neg n8]
    rfl
  · rw [if_neg hu]
    rfl

/-- C2 witness: the claimed name `inv` (12 bytes, not in the catalogue) is
rejected. -/
theorem command_catalogue_exact_witness :
    ([105, 110, 118, 0, 0, 0, 0, 0, 0, 0, 0, 0] : List Nat).length = 12 ∧
    (des_command [105, 110, 118, 0, 0, 0, 0, 0, 0, 0, 0, 0]).isOk = false :=
  ⟨by decide, command_catalogue_exact.2 _ (by decide) (by decide)⟩

/-- C3: signed fixed-width integers are sign-magnitude with the sign in the
high bit of the most significant byte: the i16 -1 gives {0x01, 0x80}, the
i32 -1 gives {0x01, 0x00, 0x00, 0x80}, and i32 round-trips hold at 0, 1,
2^31-1, -1 and -(2^31-1). -/
theorem signed_sign_magnitude :
    ser_i16 (-1) = [0x01, 0x80] ∧
    ser_i32 (-1) = [0x01, 0x00, 0x00, 0x80] ∧
    des_i32 (ser_i32 0) = .ok (0, []) ∧
    des_i32 (ser_i32 1) = .ok (1, []) ∧
    des_i32 (ser_i32 (2 ^ 31 - 1)) = .ok (2 ^ 31 - 1, []) ∧
    des_i32 (ser_i32 (-1)) = .ok (-1, []) ∧
    des_i32 (ser_i32 (-(2 ^ 31 - 1))) = .ok (-(2 ^ 31 - 1), []) := by
  decide

/-- C4 counterexamples: (a) a version message with version 70002 (so the
claim asserts an exact round trip) whose timestamp is -1 — the time decode
guard rejects the serialization, so deserializing does not return the
message; (b) a version message with version = i32::MIN (at or below 70001,
so the claim asserts a round trip with relay forced to false) satisfying
every decode guard — its sign-magnitude serialization collapses to version
0, so deserializing succeeds but returns a different message. -/
theorem version_roundtrip_fails_on_time :
    ((des_version (ser_version vmOutOfRangeTime)).isOk = false ∧
     vmOutOfRangeTime.version > 70001) ∧
    (vmMinVersion.version ≤ 70001 ∧
     0 ≤ vmMinVersion.timestamp ∧ vmMinVersion.timestamp ≤ 2000000000 ∧
     vmMinVersion.user_agent.length ≤ 1024 ∧
     validUtf8 vmMinVersion.user_agent = true ∧
     des_version (ser_version vmMinVersion) =
       .ok ({vmMinVersion with version := 0}, []) ∧
     ({vmMinVersion with version := 0} : VersionMessage) ≠
       {vmMinVersion with relay := false}) := by
  decide

/-- C4 (amended): the round trip holds — with relay kept above version 70001
and forced to false at or below it — for every well-formed message that
survives the decode guards: timestamp within [0, 2*10^9], user_agent at most
1024 bytes, not exactly 253 bytes (the varint encoder's 0xFD defect) and
valid UTF-8, fields within their machine widths, and version and
start_height strictly above i32::MIN (the sign-magnitude encoding of
i32::MIN collapses to 0). -/
theorem version_relay_roundtrip (v : VersionMessage)
    (hver0 : -(2 ^ 31) < v.version) (hver1 : v.version < 2 ^ 31)
    (hts0 : 0 ≤ v.timestamp) (hts1 : v.timestamp ≤ 2000000000)
    (hrl : v.addr_recv.address.length = 8)
    (hrs : ∀ s ∈ v.addr_recv.address, s < 2 ^ 16)
    (hrp : v.addr_recv.port < 2 ^ 16)
    (hfl : v.addr_from.address.length = 8)
    (hfs : ∀ s ∈ v.addr_from.address, s < 2 ^ 16)
    (hfp : v.addr_from.port < 2 ^ 16)
    (hnonce : v.nonce < 2 ^ 64)
    (hua1 : v.user_agent.length ≤ 1024) (hua2 : v.user_agent.length ≠ 0xFD)
    (hua3 : validUtf8 v.user_agent = true)
    (hsh0 : -(2 ^ 31) < v.start_height) (hsh1 : v.start_height < 2 ^ 31) :
    (v.version > 70001 → des_version (ser_version v) = .ok (v, [])) ∧
    (v.version ≤ 70001 →
      des_version (ser_version v) = .ok ({v with relay := false}, [])) := by
  have h := des_version_round v (by omega) hts0 hts1 hrl hrs hrp hfl hfs hfp
    hnonce hua1 hua2 hua3 (by omega)
  constructor
  · intro h70
    rw [h, if_pos h70]
  · intro h70
    rw [h, if_neg (by omega)]

/-- C4 witness: concrete round trips on both sides of the threshold. -/
theorem version_relay_roundtrip_witness :
    des_version (ser_version vmHigh) = .ok (vmHigh, []) ∧
    des_version (ser_version vmLow) = .ok ({vmLow with relay := false}, []) :=
  ⟨(version_relay_roundtrip vmHigh (by decide) (by decide) (by decide)
      (by decide) (by decide) (by decide) (by decide) (by decide) (by decide)
      (by decide) (by decide) (by decide) (by decide) (by decide) (by decide)
      (by decide)).1 (by decide),
   (version_relay_roundtrip vmLow (by decide) (by decide) (by decide)
      (by decide) (by decide) (by decide) (by decide) (by decide) (by decide)
      (by decide) (by decide) (by decide) (by decide) (by decide) (by decide)
      (by decide)).2 (by decide)⟩

/-- C5 counterexample: the claim says DUP on an empty stack halts the
program with valid=false; the code instead fails an `assert!` — a panic,
modelled as `none`, so no Halted-Invalid context is produced. -/
theorem dup_empty_stack_panics :
    op_dup ⟨elemNop, [], true⟩ = none := by
  rfl

/-- C5 (amended): executing an opcode that needs more stack elements than
are present (DUP, IFDUP, IF, NOTIF, HASH160 or HASH256 on an empty stack,
EQUALVERIFY with fewer than two elements) is a Rust panic — an `assert!`
failure or an `unwrap` of `None`, confirmed by the source's own
`#[should_panic]` tests — i.e. fatal, not a Halted-Invalid program state. -/
theorem stack_underflow_panics (f g : List Nat → List Nat) (c : Context) :
    (c.stack = [] →
      op_dup c = none ∧ op_ifdup c = none ∧ op_if c = none ∧
      op_notif c = none ∧ op_hash160 f g c = none ∧ op_hash256 f c = none) ∧
    (c.stack.length < 2 → op_equalverify c = none) := by
  obtain ⟨d, stack, v⟩ := c
  constructor
  · intro h
    simp only at h
    subst h
    exact ⟨rfl, rfl, rfl, rfl, rfl, rfl⟩
  · intro h
    simp only at h
    match stack, h with
    | [], _ => rfl
    | [x], _ => rfl

/-- C5 witness: the underflow panics at concrete empty/singleton stacks. -/
theorem stack_underflow_panics_witness :
    op_ifdup ⟨elemNop, [], true⟩ = none ∧
    op_equalverify ⟨elemNop, [[1]], true⟩ = none :=
  ⟨((stack_underflow_panics id id ⟨elemNop, [], true⟩).1 rfl).2.1,
   (stack_underflow_panics id id ⟨elemNop, [[1]], true⟩).2 (by decide)⟩

/-- C6: a stack element is false exactly when it is empty or the single
byte 0x80 (multi-byte strings are always true), and this truthiness is what
OP_IF, OP_NOTIF, OP_IFDUP and OP_VERIFY branch on. -/
theorem truthiness (x : List Nat) :
    (is_true (some x) = false ↔ x = [] ∨ x = [0x80]) ∧
    (∀ (dd : List Nat) (n e : ScriptElement) (s : List (List Nat)) (v : Bool),
      op_if ⟨ScriptElement.mk dd (some n) (some e), x :: s, v⟩ =
        some ⟨if is_true (some x) then n else e, s, v⟩) ∧
    (∀ (dd : List Nat) (n e : ScriptElement) (s : List (List Nat)) (v : Bool),
      op_notif ⟨ScriptElement.mk dd (some n) (some e), x :: s, v⟩ =
        some ⟨if is_true (some x) then e else n, s, v⟩) ∧
    (∀ (d : ScriptElement) (s : List (List Nat)) (v : Bool),
      op_ifdup ⟨d, x :: s, v⟩ =
        some ⟨d, if is_true (some x) then x :: x :: s else x :: s, v⟩) ∧
    (∀ (d : ScriptElement) (s : List (List Nat)) (v : Bool),
      op_verify ⟨d, x :: s, v⟩ = some ⟨d, x :: s, is_true (some x)⟩) := by
  refine ⟨?_, ?_, ?_, ?_, ?_⟩
  · rcases x with _ | ⟨b, _ | ⟨c, t⟩⟩ <;> simp [is_true, ZERO]
  · intro dd n e s v
    by_cases hc : is_true (some x) = true <;>
      simp [op_if, ScriptElement.next, ScriptElement.next_else, hc]
  · intro dd n e s v
    by_cases hc : is_true (some x) = true <;>
      simp [op_notif, ScriptElement.next, ScriptElement.next_else, hc]
  · intro d s v
    by_cases hc : is_true (some x) = true <;> simp [op_ifdup, op_dup, hc]
  · intro d s v
    rfl

/-- C6 witness: the characterization evaluated at the byte string 0x80. -/
theorem truthiness_witness : is_true (some [0x80]) = false :=
  (truthiness [0x80]).1.mpr (Or.inr rfl)

/-- C7 counterexample: the claim says ShortFormat time decoding rejects
values above 2*10^9; decoding the 4-byte little-endian encoding of
2000000001 succeeds. -/
theorem short_time_no_guard :
    to_short_time [1, 148, 53, 119] = .ok (2000000001, []) := by
  decide

/-- C7 (amended): the range guard (reject seconds below 0 or above 2*10^9)
applies only to the default 8-byte signed format; the ShortFormat 4-byte
unsigned decode performs no range validation and succeeds whenever four
bytes are available. -/
theorem time_decode_guard (input : List Nat) (sec : Int) (rest : List Nat) :
    (to_i 8 input = .ok (sec, rest) →
      ((sec < 0 ∨ sec > 2000000000) → (to_time input).isOk = false) ∧
      (0 ≤ sec → sec ≤ 2000000000 → to_time input = .ok (sec, rest))) ∧
    (∀ b0 b1 b2 b3 tail, input = b0 :: b1 :: b2 :: b3 :: tail →
      to_short_time input =
        .ok (((b0 + 256 * (b1 + 256 * (b2 + 256 * b3))) : Nat), tail)) := by
  constructor
  · intro h8
    constructor
    · intro hout
      unfold to_time
      rw [h8]
      dsimp only []
      rw [if_pos (by omega)]
      rfl
    · intro h0 h1
      unfold to_time
      rw [h8]
      dsimp only []
      rw [if_neg (by omega)]
  · intro b0 b1 b2 b3 tail hin
    subst hin
    unfold to_short_time to_u_fixed
    rw [show readBytes 4 (b0 :: b1 :: b2 :: b3 :: tail) =
        some ([b0, b1, b2, b3], tail) from
      readBytes_append 4 [b0, b1, b2, b3] tail (by simp)]
    simp [to_u_slice]

/-- C7 witness: the guard rejects a negative 8-byte time and the short
format accepts four bytes unconditionally. -/
theorem time_decode_guard_witness :
    (to_time (i_to_fixed (-1) 8)).isOk = false ∧
    to_short_time [1, 0, 0, 0] = .ok (1, []) :=
  ⟨((time_decode_guard (i_to_fixed (-1) 8) (-1) []).1 (by decide)).1
      (by decide),
   by
     have h := (time_decode_guard [1, 0, 0, 0] 0 []).2 1 0 0 0 [] rfl
     simpa using h⟩

/-- C8: get_blocks skips (no frame, state untouched) when more than 100
pending-inv entries are live or the peer's waiting timeout is set;
otherwise it marks the peer waiting and emits exactly one getblocks frame
carrying the store's block locators and an all-zero hash_stop. -/
theorem get_blocks_gating (s : State) (token now : Nat) (p : Peer)
    (hp : s.get_peer token = some p) :
    ((s.pending_inv_len now > 100 ∨ p.is_waiting_for_blocks now = true) →
      get_blocks s token now = some (s, [])) ∧
    (s.pending_inv_len now ≤ 100 → p.is_waiting_for_blocks now = false →
      get_blocks s token now = some
        (s.set_peer token (p.sent_getblocks now),
         [Frame.getblocks ⟨VERSION, s.block_locators, zeroHash⟩])) := by
  constructor
  · rintro (h | h)
    · unfold get_blocks
      rw [if_pos h]
    · unfold get_blocks
      by_cases hb : s.pending_inv_len now > 100
      · rw [if_pos hb]
      · rw [if_neg hb, hp]
        dsimp only []
        rw [if_pos h]
  · intro h1 h2
    unfold get_blocks
    rw [if_neg (by omega), hp]
    dsimp only []
    rw [if_neg (by simp [h2])]

/-- C8 witness: on a fresh state (empty cache, peer not waiting) a single
getblocks frame is emitted and the peer is marked waiting. -/
theorem get_blocks_gating_witness :
    get_blocks stateFresh 0 5 = some
      (stateFresh.set_peer 0 (peerFresh.sent_getblocks 5),
       [Frame.getblocks ⟨VERSION, stateFresh.block_locators, zeroHash⟩]) :=
  (get_blocks_gating stateFresh 0 5 peerFresh rfl).2 (by decide) (by decide)

/-- C9: OP_VERIFY is total — it never underflows: it sets `valid` from the
truthiness of the top of the stack without popping, and on an empty stack
(where `last()` is `None`) that truthiness is false. -/
theorem verify_total :
    (∀ c : Context, op_verify c = some { c with valid := is_true c.stack.head? }) ∧
    (∀ (d : ScriptElement) (v : Bool), op_verify ⟨d, [], v⟩ = some ⟨d, [], false⟩) ∧
    (∀ (d : ScriptElement) (x : List Nat) (s : List (List Nat)) (v : Bool),
      op_verify ⟨d, x :: s, v⟩ = some ⟨d, x :: s, is_true (some x)⟩) :=
  ⟨fun _ => rfl, fun _ _ => rfl, fun _ _ _ _ => rfl⟩

/-- C10: handle_inv always replies — whatever the announced inventory
(including when everything announced is already stored or pending), the
dispatcher emits exactly one getdata frame (possibly with an empty
inventory list) and clears the peer's waiting_for_blocks flag. -/
theorem handle_inv_always_replies (s : State) (inventory : List InventoryVector)
    (token now : Nat) (p : Peer) (hp : s.get_peer token = some p) :
    ∃ s' nd, handle_inv s inventory token now = some (s', [Frame.getdata nd]) ∧
      ∃ p', s'.get_peer token = some p' ∧
        p'.is_waiting_for_blocks now = false := by
  unfold handle_inv
  have hpeers : (inventory.foldl (handle_inv_step now) (s, [])).1.peers = s.peers :=
    handle_inv_fold_peers now inventory (s, [])
  have hget : (inventory.foldl (handle_inv_step now) (s, [])).1.get_peer token =
      some p := by
    unfold State.get_peer
    rw [hpeers]
    exact hp
  dsimp only []
  rw [hget]
  refine ⟨_, _, rfl, p.got_inv now, ?_, got_inv_not_waiting p now⟩
  exact get_set_peer _ token p _ hget

/-- C10 witness: a fresh state with one peer and an inv announcing a block
already in the store still gets exactly one (empty) getdata reply. -/
theorem handle_inv_always_replies_witness :
    ∃ s' nd, handle_inv stateFresh [⟨InvVecType.msg_block, [1]⟩] 0 7 =
        some (s', [Frame.getdata nd]) ∧
      ∃ p', s'.get_peer 0 = some p' ∧ p'.is_waiting_for_blocks 7 = false :=
  handle_inv_always_replies stateFresh [⟨InvVecType.msg_block, [1]⟩] 0 7
    peerFresh rfl

end BitcoinRust
